import Mathlib

/-!
Verification of the bounds-and-placement calculator shared by
`BlendAI_Smart.py` and `BlendAI_Ubuntu.py`.

The in-scope logic gathers world coordinates of all vertices of mesh
objects, computes an axis-aligned bounding box, and derives from it the
position and scale of an auxiliary reference plane
(`_position_reference_plane` in both scripts) and a camera position
(`render_smart_preview` in the Smart script).

Python floats are modelled as rationals (`ℚ`): every constant appearing
in the source (`1.5`, `0.8`, `0.5`, `2`) is exactly representable in
binary floating point, and no operation in scope can overflow or round
on the inputs considered, so the rational model is faithful for the
properties stated here.
-/

/-- A 3D coordinate triple, mirroring the host's `Vector((x, y, z))`. -/
structure Point3 where
  x : ℚ
  y : ℚ
  z : ℚ
deriving DecidableEq, Repr

/-- Componentwise addition, mirroring `Vector + Vector`. -/
def Point3.add (p q : Point3) : Point3 :=
  ⟨p.x + q.x, p.y + q.y, p.z + q.z⟩

/-- Componentwise subtraction, mirroring `Vector - Vector`. -/
def Point3.sub (p q : Point3) : Point3 :=
  ⟨p.x - q.x, p.y - q.y, p.z - q.z⟩

/-- Componentwise halving, mirroring `Vector / 2`. -/
def Point3.half (p : Point3) : Point3 :=
  ⟨p.x / 2, p.y / 2, p.z / 2⟩

/-- An axis-aligned bounding box: `min_coords` and `max_coords` in the
source. -/
structure BoundingBox where
  lo : Point3
  hi : Point3
deriving DecidableEq, Repr

/--
`computeBoundingBox`: the bounding-box computation both scripts inline.

Source (`BlendAI_Smart.py` lines 375-381, `BlendAI_Ubuntu.py` lines
175-182):
```
if all_coords:
    min_coords = Vector((min(coord.x for coord in all_coords),
                         min(coord.y for coord in all_coords),
                         min(coord.z for coord in all_coords)))
    max_coords = Vector((max(coord.x for coord in all_coords),
                         max(coord.y for coord in all_coords),
                         max(coord.z for coord in all_coords)))
```
Python's `min` / `max` over a non-empty sequence is a left fold of the
binary `min` / `max` starting from the first element.  The `if
all_coords:` guard is modelled by returning `none` on the empty list:
the source computes no box and silently skips placement in that case
(it raises nothing).
-/
def computeBoundingBox : List Point3 → Option BoundingBox
  | [] => none
  | p :: ps =>
      some
        { lo := ⟨(ps.map Point3.x).foldl min p.x,
                 (ps.map Point3.y).foldl min p.y,
                 (ps.map Point3.z).foldl min p.z⟩
          hi := ⟨(ps.map Point3.x).foldl max p.x,
                 (ps.map Point3.y).foldl max p.y,
                 (ps.map Point3.z).foldl max p.z⟩ }

/-- `model_center = (min_coords + max_coords) / 2`. -/
def BoundingBox.center (bb : BoundingBox) : Point3 :=
  (bb.lo.add bb.hi).half

/-- `model_size = max_coords - min_coords`. -/
def BoundingBox.size (bb : BoundingBox) : Point3 :=
  bb.hi.sub bb.lo

/-- Python's `max(model_size)` over a 3-component `Vector`: the largest
of the three components. -/
def BoundingBox.maxExtent (bb : BoundingBox) : ℚ :=
  max (max bb.size.x bb.size.y) bb.size.z

section FoldMinMax

/-- A left fold of `min` is bounded by its initial accumulator. -/
theorem foldl_min_le_init (xs : List ℚ) (a : ℚ) : xs.foldl min a ≤ a := by
  induction xs generalizing a with
  | nil => simp
  | cons x xs ih =>
      simpa using le_trans (ih (min a x)) (min_le_left a x)

/-- A left fold of `min` is a lower bound of every list element. -/
theorem foldl_min_le_mem (xs : List ℚ) (a : ℚ) :
    ∀ x ∈ xs, xs.foldl min a ≤ x := by
  induction xs generalizing a with
  | nil => simp
  | cons y ys ih =>
      intro x hx
      rw [List.foldl_cons]
      rcases List.mem_cons.mp hx with rfl | hx
      · exact le_trans (foldl_min_le_init ys (min a x)) (min_le_right a x)
      · exact ih (min a y) x hx

/-- A left fold of `min` is the initial accumulator or one of the
elements. -/
theorem foldl_min_mem (xs : List ℚ) (a : ℚ) :
    xs.foldl min a = a ∨ xs.foldl min a ∈ xs := by
  induction xs generalizing a with
  | nil => simp
  | cons y ys ih =>
      rcases ih (min a y) with h | h
      · rw [List.foldl_cons, h]
        rcases min_cases a y with ⟨hm, _⟩ | ⟨hm, _⟩
        · left; exact hm
        · right; rw [hm]; exact List.mem_cons_self y ys
      · right
        rw [List.foldl_cons]
        exact List.mem_cons_of_mem y h

/-- A left fold of `max` is bounded below by its initial accumulator. -/
theorem le_foldl_max_init (xs : List ℚ) (a : ℚ) : a ≤ xs.foldl max a := by
  induction xs generalizing a with
  | nil => simp
  | cons x xs ih =>
      simpa using le_trans (le_max_left a x) (ih (max a x))

/-- A left fold of `max` is an upper bound of every list element. -/
theorem mem_le_foldl_max (xs : List ℚ) (a : ℚ) :
    ∀ x ∈ xs, x ≤ xs.foldl max a := by
  induction xs generalizing a with
  | nil => simp
  | cons y ys ih =>
      intro x hx
      rw [List.foldl_cons]
      rcases List.mem_cons.mp hx with rfl | hx
      · exact le_trans (le_max_right a x) (le_foldl_max_init ys (max a x))
      · exact ih (max a y) x hx

/-- A left fold of `max` is the initial accumulator or one of the
elements. -/
theorem foldl_max_mem (xs : List ℚ) (a : ℚ) :
    xs.foldl max a = a ∨ xs.foldl max a ∈ xs := by
  induction xs generalizing a with
  | nil => simp
  | cons y ys ih =>
      rcases ih (max a y) with h | h
      · rw [List.foldl_cons, h]
        rcases max_cases a y with ⟨hm, _⟩ | ⟨hm, _⟩
        · left; exact hm
        · right; rw [hm]; exact List.mem_cons_self y ys
      · right
        rw [List.foldl_cons]
        exact List.mem_cons_of_mem y h

/-- A left fold of `min` is either the head or a member of the list it
folds over. -/
theorem foldl_min_mem_cons (a : ℚ) (xs : List ℚ) :
    xs.foldl min a ∈ a :: xs := by
  rcases foldl_min_mem xs a with h | h
  · rw [h]; exact List.mem_cons_self _ _
  · exact List.mem_cons_of_mem _ h

/-- A left fold of `max` is either the head or a member of the list it
folds over. -/
theorem foldl_max_mem_cons (a : ℚ) (xs : List ℚ) :
    xs.foldl max a ∈ a :: xs := by
  rcases foldl_max_mem xs a with h | h
  · rw [h]; exact List.mem_cons_self _ _
  · exact List.mem_cons_of_mem _ h

end FoldMinMax

/-- A scene object as seen by the in-scope code: its `type` string, its
world transform `matrix_world` (applied to a vertex coordinate by the
host's `@` operator, modelled as an opaque coordinate map), and the
local coordinates `vertex.co` of its mesh vertices. -/
structure SceneObject where
  type : String
  matrixWorld : Point3 → Point3
  vertices : List Point3

/--
The vertex-gathering loop both scripts run
(`BlendAI_Smart.py` lines 368-373 and 671-676, `BlendAI_Ubuntu.py`
lines 168-173):
```
all_coords = []
for obj in objects:
    if obj.type == 'MESH':
        for vertex in obj.data.vertices:
            world_coord = obj.matrix_world @ vertex.co
            all_coords.append(world_coord)
```
-/
def gatherMeshCoords (objs : List SceneObject) : List Point3 :=
  objs.foldl
    (fun acc obj =>
      if obj.type = "MESH" then acc ++ obj.vertices.map obj.matrixWorld
      else acc)
    []

/-- The mutable state of the reference plane that
`_position_reference_plane` updates: its `location` and its `scale`
triple. -/
structure PlaneState where
  location : Point3
  scale : Point3
deriving DecidableEq, Repr

/--
The plane update of `BlendAI_Smart.py` lines 375-393, applied to the
gathered coordinate list:
```
if all_coords:
    ... min_coords / max_coords ...
    model_center = (min_coords + max_coords) / 2
    model_size = max_coords - min_coords
    offset_distance = max(model_size) * 1.5
    self.reference_plane.location.x = model_center.x + offset_distance
    self.reference_plane.location.z = model_center.z
    scale_factor = max(model_size) * 0.8
    self.reference_plane.scale = (scale_factor, scale_factor, 1)
```
When `all_coords` is empty the plane is left untouched and no error is
raised.
-/
def smartPlaneUpdate (allCoords : List Point3) (plane : PlaneState) :
    PlaneState :=
  match computeBoundingBox allCoords with
  | none => plane
  | some bb =>
      let modelCenter := bb.center
      let offsetDistance := bb.maxExtent * (3 / 2)
      let scaleFactor := bb.maxExtent * (4 / 5)
      { plane with
        location := ⟨modelCenter.x + offsetDistance, plane.location.y,
                     modelCenter.z⟩
        scale := ⟨scaleFactor, scaleFactor, 1⟩ }

/-- `SmartBlendAI._position_reference_plane` (lines 361-398): early
return when there are no imported objects, then gather mesh vertex
coordinates and update the plane. -/
def positionReferencePlaneSmart (objs : List SceneObject)
    (plane : PlaneState) : PlaneState :=
  if objs.isEmpty then plane
  else smartPlaneUpdate (gatherMeshCoords objs) plane

/--
The plane update of `BlendAI_Ubuntu.py` lines 175-188, applied to the
gathered coordinate list:
```
if all_coords:
    ... min_coords / max_coords ...
    model_width = max_coords.x - min_coords.x
    self.reference_plane.location.x = max_coords.x + model_width * 0.5
    self.reference_plane.location.z = (min_coords.z + max_coords.z) / 2
```
No scale is assigned, and when `all_coords` is empty the plane is left
untouched with no error raised.
-/
def ubuntuPlaneUpdate (allCoords : List Point3) (plane : PlaneState) :
    PlaneState :=
  match computeBoundingBox allCoords with
  | none => plane
  | some bb =>
      let modelWidth := bb.hi.x - bb.lo.x
      { plane with
        location := ⟨bb.hi.x + modelWidth * (1 / 2), plane.location.y,
                     (bb.lo.z + bb.hi.z) / 2⟩ }

/-- `BlendAISetup._position_reference_plane` (lines 162-188): early
return when there are no imported objects, then gather mesh vertex
coordinates and update the plane. -/
def positionReferencePlaneUbuntu (objs : List SceneObject)
    (plane : PlaneState) : PlaneState :=
  if objs.isEmpty then plane
  else ubuntuPlaneUpdate (gatherMeshCoords objs) plane

/--
The camera placement of `SmartBlendAI.render_smart_preview`
(`BlendAI_Smart.py` lines 678-701), applied to the gathered coordinate
list.  Returns the camera location together with the aiming direction
the code feeds to `to_track_quat`:
```
if all_coords:
    ... min_coords / max_coords ...
    center = (min_coords + max_coords) / 2
    size = max_coords - min_coords
    distance = max(size) * 2
    camera.location = center + Vector((distance, -distance, distance * 0.5))
    direction = center - camera.location
```
`none` when no coordinates were gathered: the camera is then not moved.
-/
def smartCameraPlacement (allCoords : List Point3) :
    Option (Point3 × Point3) :=
  (computeBoundingBox allCoords).map fun bb =>
    let center := bb.center
    let distance := bb.maxExtent * 2
    let location := center.add ⟨distance, -distance, distance * (1 / 2)⟩
    (location, center.sub location)

/-- The `PlacementResult` record of the specification's
bounds-and-placement calculator. -/
structure PlacementResult where
  center : Point3
  size : Point3
  cameraPos : Point3
  cameraLook : Point3
  planePos : Point3
  planeScale : ℚ
deriving DecidableEq, Repr

/--
Modelled from the spec: `derivePlacement(box, offsetMultiplier,
cameraHeightRatio)`, the deduplicated calculator of spec section 4.1,
which the source scripts inline with `offsetMultiplier = 1.5` and
`cameraHeightRatio = 0.5` hard-coded.  Center is the box midpoint, size
the componentwise difference, `maxExtent` the largest size component;
the plane sits at `center.x + maxExtent * offsetMultiplier` with `Z`
copied from the center and `Y` zero, with uniform scale
`maxExtent * 0.8`; the camera sits at
`center + (distance, -distance, distance * cameraHeightRatio)` with
`distance = maxExtent * 2`, looking toward the center.
-/
def derivePlacement (bb : BoundingBox) (offsetMultiplier : ℚ)
    (cameraHeightRatio : ℚ) : PlacementResult :=
  let center := bb.center
  let size := bb.size
  let maxExtent := bb.maxExtent
  let distance := maxExtent * 2
  let cameraPos :=
    center.add ⟨distance, -distance, distance * cameraHeightRatio⟩
  { center := center
    size := size
    cameraPos := cameraPos
    cameraLook := center.sub cameraPos
    planePos := ⟨center.x + maxExtent * offsetMultiplier, 0, center.z⟩
    planeScale := maxExtent * (4 / 5) }

/-- Modelled from the spec: membership in the convex hull of a finite
point list, i.e. being a combination of the points with non-negative
weights summing to `1`. -/
def inConvexHull (ps : List Point3) (c : Point3) : Prop :=
  ∃ ws : List ℚ,
    ws.length = ps.length ∧ (∀ w ∈ ws, 0 ≤ w) ∧ ws.sum = 1 ∧
    (List.zipWith (fun w p => w * p.x) ws ps).sum = c.x ∧
    (List.zipWith (fun w p => w * p.y) ws ps).sum = c.y ∧
    (List.zipWith (fun w p => w * p.z) ws ps).sum = c.z

section BoundingBoxFacts

/-- The computed `min_coords` is a componentwise lower bound of every
input point. -/
theorem computeBoundingBox_lo_le {ps : List Point3} {bb : BoundingBox}
    (h : computeBoundingBox ps = some bb) :
    ∀ q ∈ ps, bb.lo.x ≤ q.x ∧ bb.lo.y ≤ q.y ∧ bb.lo.z ≤ q.z := by
  cases ps with
  | nil => simp [computeBoundingBox] at h
  | cons p tail =>
      simp only [computeBoundingBox, Option.some.injEq] at h
      subst h
      intro q hq
      rcases List.mem_cons.mp hq with rfl | hq
      · exact ⟨foldl_min_le_init _ _, foldl_min_le_init _ _,
          foldl_min_le_init _ _⟩
      · exact ⟨foldl_min_le_mem _ _ _ (List.mem_map_of_mem Point3.x hq),
          foldl_min_le_mem _ _ _ (List.mem_map_of_mem Point3.y hq),
          foldl_min_le_mem _ _ _ (List.mem_map_of_mem Point3.z hq)⟩

/-- The computed `max_coords` is a componentwise upper bound of every
input point. -/
theorem computeBoundingBox_le_hi {ps : List Point3} {bb : BoundingBox}
    (h : computeBoundingBox ps = some bb) :
    ∀ q ∈ ps, q.x ≤ bb.hi.x ∧ q.y ≤ bb.hi.y ∧ q.z ≤ bb.hi.z := by
  cases ps with
  | nil => simp [computeBoundingBox] at h
  | cons p tail =>
      simp only [computeBoundingBox, Option.some.injEq] at h
      subst h
      intro q hq
      rcases List.mem_cons.mp hq with rfl | hq
      · exact ⟨le_foldl_max_init _ _, le_foldl_max_init _ _,
          le_foldl_max_init _ _⟩
      · exact ⟨mem_le_foldl_max _ _ _ (List.mem_map_of_mem Point3.x hq),
          mem_le_foldl_max _ _ _ (List.mem_map_of_mem Point3.y hq),
          mem_le_foldl_max _ _ _ (List.mem_map_of_mem Point3.z hq)⟩

/-- Each `min_coords` component is attained by some input point. -/
theorem computeBoundingBox_lo_mem {ps : List Point3} {bb : BoundingBox}
    (h : computeBoundingBox ps = some bb) :
    bb.lo.x ∈ ps.map Point3.x ∧ bb.lo.y ∈ ps.map Point3.y ∧
      bb.lo.z ∈ ps.map Point3.z := by
  cases ps with
  | nil => simp [computeBoundingBox] at h
  | cons p tail =>
      simp only [computeBoundingBox, Option.some.injEq] at h
      subst h
      refine ⟨?_, ?_, ?_⟩
      · rw [List.map_cons]
        exact foldl_min_mem_cons p.x (tail.map Point3.x)
      · rw [List.map_cons]
        exact foldl_min_mem_cons p.y (tail.map Point3.y)
      · rw [List.map_cons]
        exact foldl_min_mem_cons p.z (tail.map Point3.z)

/-- Each `max_coords` component is attained by some input point. -/
theorem computeBoundingBox_hi_mem {ps : List Point3} {bb : BoundingBox}
    (h : computeBoundingBox ps = some bb) :
    bb.hi.x ∈ ps.map Point3.x ∧ bb.hi.y ∈ ps.map Point3.y ∧
      bb.hi.z ∈ ps.map Point3.z := by
  cases ps with
  | nil => simp [computeBoundingBox] at h
  | cons p tail =>
      simp only [computeBoundingBox, Option.some.injEq] at h
      subst h
      refine ⟨?_, ?_, ?_⟩
      · rw [List.map_cons]
        exact foldl_max_mem_cons p.x (tail.map Point3.x)
      · rw [List.map_cons]
        exact foldl_max_mem_cons p.y (tail.map Point3.y)
      · rw [List.map_cons]
        exact foldl_max_mem_cons p.z (tail.map Point3.z)

/-- `min_coords ≤ max_coords` componentwise. -/
theorem computeBoundingBox_lo_le_hi {ps : List Point3} {bb : BoundingBox}
    (h : computeBoundingBox ps = some bb) :
    bb.lo.x ≤ bb.hi.x ∧ bb.lo.y ≤ bb.hi.y ∧ bb.lo.z ≤ bb.hi.z := by
  cases ps with
  | nil => simp [computeBoundingBox] at h
  | cons p tail =>
      simp only [computeBoundingBox, Option.some.injEq] at h
      subst h
      exact ⟨le_trans (foldl_min_le_init _ _) (le_foldl_max_init _ _),
        le_trans (foldl_min_le_init _ _) (le_foldl_max_init _ _),
        le_trans (foldl_min_le_init _ _) (le_foldl_max_init _ _)⟩

end BoundingBoxFacts

/-- **C5.** For every non-empty input point sequence, `computeBoundingBox`
returns a `BoundingBox` whose min and max on each axis are the minimum
and maximum of that coordinate across all input points (a componentwise
bound that is attained by some point), and the result satisfies
`min ≤ max` componentwise.  The computation is a pure function of the
input list, so it has no side effects on it. -/
theorem c5_computeBoundingBox_correct (ps : List Point3) (hne : ps ≠ []) :
    ∃ bb : BoundingBox, computeBoundingBox ps = some bb ∧
      (∀ q ∈ ps, bb.lo.x ≤ q.x ∧ bb.lo.y ≤ q.y ∧ bb.lo.z ≤ q.z ∧
        q.x ≤ bb.hi.x ∧ q.y ≤ bb.hi.y ∧ q.z ≤ bb.hi.z) ∧
      (bb.lo.x ∈ ps.map Point3.x ∧ bb.lo.y ∈ ps.map Point3.y ∧
        bb.lo.z ∈ ps.map Point3.z) ∧
      (bb.hi.x ∈ ps.map Point3.x ∧ bb.hi.y ∈ ps.map Point3.y ∧
        bb.hi.z ∈ ps.map Point3.z) ∧
      (bb.lo.x ≤ bb.hi.x ∧ bb.lo.y ≤ bb.hi.y ∧ bb.lo.z ≤ bb.hi.z) := by
  cases ps with
  | nil => exact absurd rfl hne
  | cons p tail =>
      obtain ⟨bb, hbb⟩ : ∃ bb, computeBoundingBox (p :: tail) = some bb :=
        ⟨_, rfl⟩
      refine ⟨bb, hbb, ?_, computeBoundingBox_lo_mem hbb,
        computeBoundingBox_hi_mem hbb, computeBoundingBox_lo_le_hi hbb⟩
      intro q hq
      obtain ⟨hx, hy, hz⟩ := computeBoundingBox_lo_le hbb q hq
      obtain ⟨hx', hy', hz'⟩ := computeBoundingBox_le_hi hbb q hq
      exact ⟨hx, hy, hz, hx', hy', hz'⟩

/-- Witness for C5 at the spec's concrete scenario
`{(0,0,0), (2,0,0), (0,0,4)}`. -/
theorem c5_computeBoundingBox_correct_witness :
    (([⟨0, 0, 0⟩, ⟨2, 0, 0⟩, ⟨0, 0, 4⟩] : List Point3) ≠ []) ∧
      ∃ bb : BoundingBox,
        computeBoundingBox [⟨0, 0, 0⟩, ⟨2, 0, 0⟩, ⟨0, 0, 4⟩] = some bb ∧
        (∀ q ∈ ([⟨0, 0, 0⟩, ⟨2, 0, 0⟩, ⟨0, 0, 4⟩] : List Point3),
          bb.lo.x ≤ q.x ∧ bb.lo.y ≤ q.y ∧ bb.lo.z ≤ q.z ∧
          q.x ≤ bb.hi.x ∧ q.y ≤ bb.hi.y ∧ q.z ≤ bb.hi.z) ∧
        (bb.lo.x ∈ List.map Point3.x [⟨0, 0, 0⟩, ⟨2, 0, 0⟩, ⟨0, 0, 4⟩] ∧
          bb.lo.y ∈ List.map Point3.y [⟨0, 0, 0⟩, ⟨2, 0, 0⟩, ⟨0, 0, 4⟩] ∧
          bb.lo.z ∈ List.map Point3.z [⟨0, 0, 0⟩, ⟨2, 0, 0⟩, ⟨0, 0, 4⟩]) ∧
        (bb.hi.x ∈ List.map Point3.x [⟨0, 0, 0⟩, ⟨2, 0, 0⟩, ⟨0, 0, 4⟩] ∧
          bb.hi.y ∈ List.map Point3.y [⟨0, 0, 0⟩, ⟨2, 0, 0⟩, ⟨0, 0, 4⟩] ∧
          bb.hi.z ∈ List.map Point3.z [⟨0, 0, 0⟩, ⟨2, 0, 0⟩, ⟨0, 0, 4⟩]) ∧
        (bb.lo.x ≤ bb.hi.x ∧ bb.lo.y ≤ bb.hi.y ∧ bb.lo.z ≤ bb.hi.z) :=
  ⟨by simp, c5_computeBoundingBox_correct _ (by simp)⟩

/-- **C1 (counterexample).** On an empty coordinate list the source does
not raise any `EmptyInputError`: `computeBoundingBox` produces no box
(`none`, mirroring the `if all_coords:` guard) and both
`_position_reference_plane` updates return normally with the plane
completely untouched, so no error is propagated to the caller. -/
theorem c1_counterexample :
    computeBoundingBox [] = none ∧
    smartPlaneUpdate [] ⟨⟨0, 0, 0⟩, ⟨1, 1, 1⟩⟩ = ⟨⟨0, 0, 0⟩, ⟨1, 1, 1⟩⟩ ∧
    ubuntuPlaneUpdate [] ⟨⟨0, 0, 0⟩, ⟨1, 1, 1⟩⟩ = ⟨⟨0, 0, 0⟩, ⟨1, 1, 1⟩⟩ :=
  ⟨rfl, rfl, rfl⟩

/-- **C1 (amended).** For every empty input point sequence the source
silently skips placement: no bounding box is computed, no placement is
produced, the plane state is left unchanged, and no error is raised. -/
theorem c1_empty_input_silent_skip (plane : PlaneState) :
    computeBoundingBox [] = none ∧
    smartPlaneUpdate [] plane = plane ∧
    ubuntuPlaneUpdate [] plane = plane :=
  ⟨rfl, rfl, rfl⟩

/-- **C4.** For every bounding box computed from a gathered coordinate
list and every `cameraHeightRatio`, `derivePlacement` puts the camera at
`center + (distance, -distance, distance * cameraHeightRatio)` with
`distance = maxExtent * 2`, and `render_smart_preview` realises exactly
this placement (location and aiming direction) at the source's
hard-coded `cameraHeightRatio = 0.5`. -/
theorem c4_camera_position (coords : List Point3) (bb : BoundingBox)
    (m r : ℚ) (hbb : computeBoundingBox coords = some bb) :
    (derivePlacement bb m r).cameraPos =
      bb.center.add
        ⟨bb.maxExtent * 2, -(bb.maxExtent * 2), bb.maxExtent * 2 * r⟩ ∧
    smartCameraPlacement coords =
      some ((derivePlacement bb (3 / 2) (1 / 2)).cameraPos,
        (derivePlacement bb (3 / 2) (1 / 2)).cameraLook) := by
  constructor
  · rfl
  · simp [smartCameraPlacement, hbb, derivePlacement]

/-- The spec's concrete scenario evaluated: the box of
`{(0,0,0), (2,0,0), (0,0,4)}` puts the camera at `(9, -8, 6)`. -/
theorem camera_at_spec_scenario :
    (derivePlacement ⟨⟨0, 0, 0⟩, ⟨2, 0, 4⟩⟩ (3 / 2) (1 / 2)).cameraPos =
      ⟨9, -8, 6⟩ := by
  norm_num [derivePlacement, BoundingBox.center, BoundingBox.maxExtent,
    BoundingBox.size, Point3.add, Point3.half, Point3.sub]

/-- Witness for C4 at the spec's concrete scenario: the camera for
points `{(0,0,0), (2,0,0), (0,0,4)}` lands at `(9, -8, 6)`. -/
theorem c4_camera_position_witness :
    computeBoundingBox [⟨0, 0, 0⟩, ⟨2, 0, 0⟩, ⟨0, 0, 4⟩] =
      some ⟨⟨0, 0, 0⟩, ⟨2, 0, 4⟩⟩ ∧
    ((derivePlacement ⟨⟨0, 0, 0⟩, ⟨2, 0, 4⟩⟩ (3 / 2) (1 / 2)).cameraPos =
        (BoundingBox.center ⟨⟨0, 0, 0⟩, ⟨2, 0, 4⟩⟩).add
          ⟨BoundingBox.maxExtent ⟨⟨0, 0, 0⟩, ⟨2, 0, 4⟩⟩ * 2,
            -(BoundingBox.maxExtent ⟨⟨0, 0, 0⟩, ⟨2, 0, 4⟩⟩ * 2),
            BoundingBox.maxExtent ⟨⟨0, 0, 0⟩, ⟨2, 0, 4⟩⟩ * 2 * (1 / 2)⟩ ∧
      smartCameraPlacement [⟨0, 0, 0⟩, ⟨2, 0, 0⟩, ⟨0, 0, 4⟩] =
        some
          ((derivePlacement ⟨⟨0, 0, 0⟩, ⟨2, 0, 4⟩⟩ (3 / 2) (1 / 2)).cameraPos,
          (derivePlacement ⟨⟨0, 0, 0⟩, ⟨2, 0, 4⟩⟩ (3 / 2) (1 / 2)).cameraLook)) ∧
    (derivePlacement ⟨⟨0, 0, 0⟩, ⟨2, 0, 4⟩⟩ (3 / 2) (1 / 2)).cameraPos =
      ⟨9, -8, 6⟩ :=
  ⟨by decide, c4_camera_position _ _ (3 / 2) (1 / 2) (by decide),
    camera_at_spec_scenario⟩

/-- **C6.** When `maxExtent = 0` (all gathered points coincide) the
distance and all offsets vanish: the derived camera sits exactly at the
center, the plane sits at the center's X/Z with scale `0`, and the
source's camera placement returns this well-defined value normally —
the computation is total, with no division and no error path. -/
theorem c6_degenerate_extent (coords : List Point3) (bb : BoundingBox)
    (m r : ℚ) (hbb : computeBoundingBox coords = some bb)
    (h0 : bb.maxExtent = 0) :
    (derivePlacement bb m r).cameraPos = bb.center ∧
    (derivePlacement bb m r).planePos = ⟨bb.center.x, 0, bb.center.z⟩ ∧
    (derivePlacement bb m r).planeScale = 0 ∧
    smartCameraPlacement coords = some (bb.center, ⟨0, 0, 0⟩) := by
  refine ⟨?_, ?_, ?_, ?_⟩
  · simp [derivePlacement, h0, Point3.add]
  · simp [derivePlacement, h0]
  · simp [derivePlacement, h0]
  · simp [smartCameraPlacement, hbb, h0, Point3.add, Point3.sub]

/-- Witness for C6 at the spec's degenerate scenario: the single point
`(5,5,5)` puts the camera exactly at `(5,5,5)`. -/
theorem c6_degenerate_extent_witness :
    computeBoundingBox [⟨5, 5, 5⟩] = some ⟨⟨5, 5, 5⟩, ⟨5, 5, 5⟩⟩ ∧
    BoundingBox.maxExtent ⟨⟨5, 5, 5⟩, ⟨5, 5, 5⟩⟩ = 0 ∧
    ((derivePlacement ⟨⟨5, 5, 5⟩, ⟨5, 5, 5⟩⟩ (3 / 2) (1 / 2)).cameraPos =
        BoundingBox.center ⟨⟨5, 5, 5⟩, ⟨5, 5, 5⟩⟩ ∧
      (derivePlacement ⟨⟨5, 5, 5⟩, ⟨5, 5, 5⟩⟩ (3 / 2) (1 / 2)).planePos =
        ⟨(BoundingBox.center ⟨⟨5, 5, 5⟩, ⟨5, 5, 5⟩⟩).x, 0,
          (BoundingBox.center ⟨⟨5, 5, 5⟩, ⟨5, 5, 5⟩⟩).z⟩ ∧
      (derivePlacement ⟨⟨5, 5, 5⟩, ⟨5, 5, 5⟩⟩ (3 / 2) (1 / 2)).planeScale = 0 ∧
      smartCameraPlacement [⟨5, 5, 5⟩] =
        some (BoundingBox.center ⟨⟨5, 5, 5⟩, ⟨5, 5, 5⟩⟩, ⟨0, 0, 0⟩)) :=
  ⟨by decide,
    by simp [BoundingBox.maxExtent, BoundingBox.size, Point3.sub],
    c6_degenerate_extent _ _ (3 / 2) (1 / 2) (by decide)
      (by simp [BoundingBox.maxExtent, BoundingBox.size, Point3.sub])⟩

/-- **C7.** For every single-point input `[p]`, `computeBoundingBox`
returns the degenerate box with `min = max = p`, and the derived
`PlacementResult.size` is the zero vector. -/
theorem c7_single_point (p : Point3) (m r : ℚ) :
    computeBoundingBox [p] = some ⟨p, p⟩ ∧
    (derivePlacement ⟨p, p⟩ m r).size = ⟨0, 0, 0⟩ := by
  constructor
  · rfl
  · simp [derivePlacement, BoundingBox.size, Point3.sub]

/-- **C8.** `derivePlacement` is deterministic: two invocations with
identical bounding boxes and identical parameters yield identical
`PlacementResult`s (center, size, camera position, camera orientation,
plane position and plane scale); the result depends on nothing but the
arguments. -/
theorem c8_derivePlacement_deterministic (bb₁ bb₂ : BoundingBox)
    (m₁ m₂ r₁ r₂ : ℚ) (hb : bb₁ = bb₂) (hm : m₁ = m₂) (hr : r₁ = r₂) :
    derivePlacement bb₁ m₁ r₁ = derivePlacement bb₂ m₂ r₂ := by
  subst hb; subst hm; subst hr; rfl

/-- Witness for C8 at the spec's concrete box and parameters. -/
theorem c8_derivePlacement_deterministic_witness :
    (⟨⟨0, 0, 0⟩, ⟨2, 0, 4⟩⟩ : BoundingBox) = ⟨⟨0, 0, 0⟩, ⟨2, 0, 4⟩⟩ ∧
    (3 / 2 : ℚ) = 3 / 2 ∧ (1 / 2 : ℚ) = 1 / 2 ∧
    derivePlacement ⟨⟨0, 0, 0⟩, ⟨2, 0, 4⟩⟩ (3 / 2) (1 / 2) =
      derivePlacement ⟨⟨0, 0, 0⟩, ⟨2, 0, 4⟩⟩ (3 / 2) (1 / 2) :=
  ⟨rfl, rfl, rfl,
    c8_derivePlacement_deterministic _ _ _ _ _ _ rfl rfl rfl⟩

/-- **C9.** Positioning the reference plane touches only the plane's X
location, Z location and scale: in both scripts the plane's Y location
is returned unchanged, and the Ubuntu script additionally leaves the
scale unchanged. -/
theorem c9_plane_y_unchanged (objs : List SceneObject)
    (plane : PlaneState) :
    (positionReferencePlaneSmart objs plane).location.y =
      plane.location.y ∧
    (positionReferencePlaneUbuntu objs plane).location.y =
      plane.location.y ∧
    (positionReferencePlaneUbuntu objs plane).scale = plane.scale := by
  by_cases h : objs.isEmpty
  · simp [positionReferencePlaneSmart, positionReferencePlaneUbuntu, h]
  · cases hc : computeBoundingBox (gatherMeshCoords objs) with
    | none =>
        simp [positionReferencePlaneSmart, positionReferencePlaneUbuntu,
          h, smartPlaneUpdate, ubuntuPlaneUpdate, hc]
    | some bb =>
        simp [positionReferencePlaneSmart, positionReferencePlaneUbuntu,
          h, smartPlaneUpdate, ubuntuPlaneUpdate, hc]

/-- **C2 (counterexample).** For the input points
`{(1,0,0), (0,1,0), (0,0,1)}` the bounding box is `[0,1]³`, so the
derived center is `(1/2, 1/2, 1/2)`; but every convex combination of
the three input points has coordinate sum `1`, while the center's
coordinates sum to `3/2`, so the center is not in the convex hull. -/
theorem c2_counterexample :
    computeBoundingBox [⟨1, 0, 0⟩, ⟨0, 1, 0⟩, ⟨0, 0, 1⟩] =
      some ⟨⟨0, 0, 0⟩, ⟨1, 1, 1⟩⟩ ∧
    BoundingBox.center ⟨⟨0, 0, 0⟩, ⟨1, 1, 1⟩⟩ = ⟨1 / 2, 1 / 2, 1 / 2⟩ ∧
    ¬ inConvexHull [⟨1, 0, 0⟩, ⟨0, 1, 0⟩, ⟨0, 0, 1⟩]
        ⟨1 / 2, 1 / 2, 1 / 2⟩ := by
  refine ⟨by decide,
    by norm_num [BoundingBox.center, Point3.add, Point3.half], ?_⟩
  rintro ⟨ws, hlen, hnn, hsum, hx, hy, hz⟩
  rcases ws with _ | ⟨a, _ | ⟨b, _ | ⟨c, _ | ⟨d, t⟩⟩⟩⟩ <;>
    simp only [List.length_nil, List.length_cons] at hlen
  · omega
  · omega
  · omega
  · simp only [List.zipWith, List.sum_cons, List.sum_nil, mul_one,
      mul_zero, zero_add, add_zero] at hx hy hz hsum
    subst hx; subst hy; subst hz
    norm_num at hsum
  · omega

/-- **C2 (amended).** For every non-empty input point sequence, the
center derived from `computeBoundingBox` — the componentwise midpoint of
the box's min and max corners — lies within the axis-aligned bounding
box of the input points (componentwise between min and max). -/
theorem c2_center_in_bounding_box (ps : List Point3) (bb : BoundingBox)
    (h : computeBoundingBox ps = some bb) :
    bb.lo.x ≤ bb.center.x ∧ bb.center.x ≤ bb.hi.x ∧
    bb.lo.y ≤ bb.center.y ∧ bb.center.y ≤ bb.hi.y ∧
    bb.lo.z ≤ bb.center.z ∧ bb.center.z ≤ bb.hi.z := by
  obtain ⟨hx, hy, hz⟩ := computeBoundingBox_lo_le_hi h
  simp only [BoundingBox.center, Point3.add, Point3.half]
  refine ⟨?_, ?_, ?_, ?_, ?_, ?_⟩ <;> linarith

/-- Witness for the amended C2 at the spec's concrete scenario. -/
theorem c2_center_in_bounding_box_witness :
    computeBoundingBox [⟨0, 0, 0⟩, ⟨2, 0, 0⟩, ⟨0, 0, 4⟩] =
      some ⟨⟨0, 0, 0⟩, ⟨2, 0, 4⟩⟩ ∧
    ((⟨⟨0, 0, 0⟩, ⟨2, 0, 4⟩⟩ : BoundingBox).lo.x ≤
        (BoundingBox.center ⟨⟨0, 0, 0⟩, ⟨2, 0, 4⟩⟩).x ∧
      (BoundingBox.center ⟨⟨0, 0, 0⟩, ⟨2, 0, 4⟩⟩).x ≤
        (⟨⟨0, 0, 0⟩, ⟨2, 0, 4⟩⟩ : BoundingBox).hi.x ∧
      (⟨⟨0, 0, 0⟩, ⟨2, 0, 4⟩⟩ : BoundingBox).lo.y ≤
        (BoundingBox.center ⟨⟨0, 0, 0⟩, ⟨2, 0, 4⟩⟩).y ∧
      (BoundingBox.center ⟨⟨0, 0, 0⟩, ⟨2, 0, 4⟩⟩).y ≤
        (⟨⟨0, 0, 0⟩, ⟨2, 0, 4⟩⟩ : BoundingBox).hi.y ∧
      (⟨⟨0, 0, 0⟩, ⟨2, 0, 4⟩⟩ : BoundingBox).lo.z ≤
        (BoundingBox.center ⟨⟨0, 0, 0⟩, ⟨2, 0, 4⟩⟩).z ∧
      (BoundingBox.center ⟨⟨0, 0, 0⟩, ⟨2, 0, 4⟩⟩).z ≤
        (⟨⟨0, 0, 0⟩, ⟨2, 0, 4⟩⟩ : BoundingBox).hi.z) :=
  ⟨by decide,
    c2_center_in_bounding_box [⟨0, 0, 0⟩, ⟨2, 0, 0⟩, ⟨0, 0, 4⟩] _
      (by decide)⟩

/-- **C3 (counterexample).** For the input points
`{(0,0,0), (1,0,0), (0,0,4)}` (box `min=(0,0,0)`, `max=(1,0,4)`,
`center.x = 1/2`, `maxExtent = 4`) the Ubuntu script places the plane at
`x = max.x + 0.5·width = 3/2`, not at the claimed
`center.x + maxExtent·1.5 = 13/2`, and does not set the plane's scale at
all (it stays `(1,1,1)` instead of the claimed `maxExtent·0.8 = 16/5`). -/
theorem c3_counterexample :
    (ubuntuPlaneUpdate [⟨0, 0, 0⟩, ⟨1, 0, 0⟩, ⟨0, 0, 4⟩]
        ⟨⟨0, 0, 0⟩, ⟨1, 1, 1⟩⟩).location.x = 3 / 2 ∧
    (derivePlacement ⟨⟨0, 0, 0⟩, ⟨1, 0, 4⟩⟩ (3 / 2) (1 / 2)).planePos.x =
      13 / 2 ∧
    ((3 : ℚ) / 2 ≠ 13 / 2) ∧
    (ubuntuPlaneUpdate [⟨0, 0, 0⟩, ⟨1, 0, 0⟩, ⟨0, 0, 4⟩]
        ⟨⟨0, 0, 0⟩, ⟨1, 1, 1⟩⟩).scale = ⟨1, 1, 1⟩ ∧
    (derivePlacement ⟨⟨0, 0, 0⟩, ⟨1, 0, 4⟩⟩ (3 / 2) (1 / 2)).planeScale =
      16 / 5 ∧
    ((1 : ℚ) ≠ 16 / 5) := by
  have hbb : computeBoundingBox [⟨0, 0, 0⟩, ⟨1, 0, 0⟩, ⟨0, 0, 4⟩] =
      some ⟨⟨0, 0, 0⟩, ⟨1, 0, 4⟩⟩ := by decide
  refine ⟨?_, ?_, by norm_num, ?_, ?_, by norm_num⟩
  · rw [ubuntuPlaneUpdate, hbb]; norm_num
  · norm_num [derivePlacement, BoundingBox.center, BoundingBox.maxExtent,
      BoundingBox.size, Point3.add, Point3.half, Point3.sub]
  · rw [ubuntuPlaneUpdate, hbb]
  · norm_num [derivePlacement, BoundingBox.maxExtent, BoundingBox.size,
      Point3.sub]

/-- **C3 (amended).** For every bounding box computed from a non-empty
coordinate list: the Smart script positions the plane at
`center.x + maxExtent * 1.5` on the X axis with Z copied from the
center and uniform scale `maxExtent * 0.8` on both horizontal axes,
while the Ubuntu script instead positions it at
`max.x + 0.5 * (max.x - min.x)` on the X axis, also with Z equal to the
center's Z, and leaves the plane's scale unchanged. -/
theorem c3_plane_placement (coords : List Point3) (bb : BoundingBox)
    (plane : PlaneState) (hbb : computeBoundingBox coords = some bb) :
    ((smartPlaneUpdate coords plane).location.x =
        bb.center.x + bb.maxExtent * (3 / 2) ∧
      (smartPlaneUpdate coords plane).location.z = bb.center.z ∧
      (smartPlaneUpdate coords plane).scale =
        ⟨bb.maxExtent * (4 / 5), bb.maxExtent * (4 / 5), 1⟩) ∧
    ((ubuntuPlaneUpdate coords plane).location.x =
        bb.hi.x + (bb.hi.x - bb.lo.x) * (1 / 2) ∧
      (ubuntuPlaneUpdate coords plane).location.z = bb.center.z ∧
      (ubuntuPlaneUpdate coords plane).scale = plane.scale) := by
  rw [smartPlaneUpdate, ubuntuPlaneUpdate, hbb]
  simp [BoundingBox.center, Point3.add, Point3.half]

/-- Witness for the amended C3 at a concrete scenario. -/
theorem c3_plane_placement_witness :
    computeBoundingBox [⟨0, 0, 0⟩, ⟨1, 0, 0⟩, ⟨0, 0, 4⟩] =
      some ⟨⟨0, 0, 0⟩, ⟨1, 0, 4⟩⟩ ∧
    (((smartPlaneUpdate [⟨0, 0, 0⟩, ⟨1, 0, 0⟩, ⟨0, 0, 4⟩]
          ⟨⟨0, 0, 0⟩, ⟨1, 1, 1⟩⟩).location.x =
        (BoundingBox.center ⟨⟨0, 0, 0⟩, ⟨1, 0, 4⟩⟩).x +
          BoundingBox.maxExtent ⟨⟨0, 0, 0⟩, ⟨1, 0, 4⟩⟩ * (3 / 2) ∧
      (smartPlaneUpdate [⟨0, 0, 0⟩, ⟨1, 0, 0⟩, ⟨0, 0, 4⟩]
          ⟨⟨0, 0, 0⟩, ⟨1, 1, 1⟩⟩).location.z =
        (BoundingBox.center ⟨⟨0, 0, 0⟩, ⟨1, 0, 4⟩⟩).z ∧
      (smartPlaneUpdate [⟨0, 0, 0⟩, ⟨1, 0, 0⟩, ⟨0, 0, 4⟩]
          ⟨⟨0, 0, 0⟩, ⟨1, 1, 1⟩⟩).scale =
        ⟨BoundingBox.maxExtent ⟨⟨0, 0, 0⟩, ⟨1, 0, 4⟩⟩ * (4 / 5),
          BoundingBox.maxExtent ⟨⟨0, 0, 0⟩, ⟨1, 0, 4⟩⟩ * (4 / 5), 1⟩) ∧
    ((ubuntuPlaneUpdate [⟨0, 0, 0⟩, ⟨1, 0, 0⟩, ⟨0, 0, 4⟩]
          ⟨⟨0, 0, 0⟩, ⟨1, 1, 1⟩⟩).location.x =
        (⟨⟨0, 0, 0⟩, ⟨1, 0, 4⟩⟩ : BoundingBox).hi.x +
          ((⟨⟨0, 0, 0⟩, ⟨1, 0, 4⟩⟩ : BoundingBox).hi.x -
            (⟨⟨0, 0, 0⟩, ⟨1, 0, 4⟩⟩ : BoundingBox).lo.x) * (1 / 2) ∧
      (ubuntuPlaneUpdate [⟨0, 0, 0⟩, ⟨1, 0, 0⟩, ⟨0, 0, 4⟩]
          ⟨⟨0, 0, 0⟩, ⟨1, 1, 1⟩⟩).location.z =
        (BoundingBox.center ⟨⟨0, 0, 0⟩, ⟨1, 0, 4⟩⟩).z ∧
      (ubuntuPlaneUpdate [⟨0, 0, 0⟩, ⟨1, 0, 0⟩, ⟨0, 0, 4⟩]
          ⟨⟨0, 0, 0⟩, ⟨1, 1, 1⟩⟩).scale =
        (⟨⟨0, 0, 0⟩, ⟨1, 1, 1⟩⟩ : PlaneState).scale)) :=
  ⟨by decide, c3_plane_placement _ _ _ (by decide)⟩

/-- The gathering loop's fold commutes with a non-empty starting
accumulator: folding from `acc` prepends `acc` to the result of folding
from the empty list. -/
theorem gather_foldl_append (objs : List SceneObject) :
    ∀ acc : List Point3,
      objs.foldl
        (fun acc obj =>
          if obj.type = "MESH" then acc ++ obj.vertices.map obj.matrixWorld
          else acc) acc =
      acc ++ gatherMeshCoords objs := by
  induction objs with
  | nil => intro acc; simp [gatherMeshCoords]
  | cons o os ih =>
      intro acc
      unfold gatherMeshCoords
      rw [List.foldl_cons, List.foldl_cons]
      by_cases ho : o.type = "MESH"
      · rw [if_pos ho, if_pos ho, ih, ih (List.nil ++ _)]
        simp [List.append_assoc]
      · rw [if_neg ho, if_neg ho, ih, ih List.nil]
        simp

/-- Unfolding the gathering loop one object at a time: an object
contributes its transformed vertices exactly when its type is
`'MESH'`. -/
theorem gatherMeshCoords_cons (o : SceneObject) (os : List SceneObject) :
    gatherMeshCoords (o :: os) =
      (if o.type = "MESH" then o.vertices.map o.matrixWorld else []) ++
        gatherMeshCoords os := by
  rw [show gatherMeshCoords (o :: os) =
      List.foldl
        (fun acc obj =>
          if obj.type = "MESH" then acc ++ obj.vertices.map obj.matrixWorld
          else acc)
        (if o.type = "MESH" then [] ++ o.vertices.map o.matrixWorld
         else []) os from rfl,
    gather_foldl_append]
  by_cases ho : o.type = "MESH"
  · rw [if_pos ho, if_pos ho, List.nil_append]
  · rw [if_neg ho, if_neg ho, List.nil_append]

/-- **C10.** Only vertices of objects whose `type` is `'MESH'` contribute
to the gathered coordinate list (filtering out all non-mesh objects
changes nothing), and when every object is non-mesh the gathered list is
empty and both `_position_reference_plane` implementations behave
exactly as on empty input: the plane is left unchanged and no exception
is raised. -/
theorem c10_only_mesh_contributes (objs : List SceneObject)
    (plane : PlaneState) :
    gatherMeshCoords objs =
      gatherMeshCoords (objs.filter fun o => o.type = "MESH") ∧
    ((∀ o ∈ objs, o.type ≠ "MESH") →
      gatherMeshCoords objs = [] ∧
      positionReferencePlaneSmart objs plane = plane ∧
      positionReferencePlaneUbuntu objs plane = plane) := by
  constructor
  · induction objs with
    | nil => rfl
    | cons o os ih =>
        rw [gatherMeshCoords_cons, List.filter_cons]
        by_cases ho : o.type = "MESH"
        · simp [ho, gatherMeshCoords_cons, ih]
        · simp [ho, gatherMeshCoords_cons, ih]
  · intro hall
    have hempty : gatherMeshCoords objs = [] := by
      induction objs with
      | nil => rfl
      | cons o os ih =>
          rw [gatherMeshCoords_cons,
            if_neg (hall o (List.mem_cons_self o os))]
          exact (List.nil_append _).trans
            (ih fun o' ho' => hall o' (List.mem_cons_of_mem o ho'))
    refine ⟨hempty, ?_, ?_⟩
    · rw [positionReferencePlaneSmart]
      by_cases h : objs.isEmpty
      · rw [if_pos h]
      · rw [if_neg h, hempty]; rfl
    · rw [positionReferencePlaneUbuntu]
      by_cases h : objs.isEmpty
      · rw [if_pos h]
      · rw [if_neg h, hempty]; rfl

/-- Witness for C10 on a scene containing a single non-mesh
(`'CAMERA'`) object: its vertices are ignored, the gathered list is
empty, and both placement routines leave the plane untouched. -/
theorem c10_only_mesh_contributes_witness :
    gatherMeshCoords [⟨"CAMERA", fun p => p, [⟨1, 2, 3⟩]⟩] =
      gatherMeshCoords
        (List.filter (fun o => o.type = "MESH")
          [⟨"CAMERA", fun p => p, [⟨1, 2, 3⟩]⟩]) ∧
    (∀ o ∈ ([⟨"CAMERA", fun p => p, [⟨1, 2, 3⟩]⟩] : List SceneObject),
      o.type ≠ "MESH") ∧
    gatherMeshCoords [⟨"CAMERA", fun p => p, [⟨1, 2, 3⟩]⟩] = [] ∧
    positionReferencePlaneSmart [⟨"CAMERA", fun p => p, [⟨1, 2, 3⟩]⟩]
      ⟨⟨0, 0, 0⟩, ⟨1, 1, 1⟩⟩ = ⟨⟨0, 0, 0⟩, ⟨1, 1, 1⟩⟩ ∧
    positionReferencePlaneUbuntu [⟨"CAMERA", fun p => p, [⟨1, 2, 3⟩]⟩]
      ⟨⟨0, 0, 0⟩, ⟨1, 1, 1⟩⟩ = ⟨⟨0, 0, 0⟩, ⟨1, 1, 1⟩⟩ := by
  have hall : ∀ o ∈ ([⟨"CAMERA", fun p => p, [⟨1, 2, 3⟩]⟩] :
      List SceneObject), o.type ≠ "MESH" := by
    intro o ho
    rcases List.mem_singleton.mp ho with rfl
    simp
  obtain ⟨h1, h2⟩ :=
    c10_only_mesh_contributes [⟨"CAMERA", fun p => p, [⟨1, 2, 3⟩]⟩]
      ⟨⟨0, 0, 0⟩, ⟨1, 1, 1⟩⟩
  obtain ⟨h3, h4, h5⟩ := h2 hall
  exact ⟨h1, hall, h3, h4, h5⟩

